import Mathlib

/-!
Shallow embedding of the `DOMLabelCollection` widget
(`Source/Enhancement/DOMLabel/DOMLabelCollection.js`) of the `plc`
repository, together with the parts of its environment the widget
manipulates: the associative array, the DOM container children, the
per-element CSS styles, and the host scene interface (camera position and
world-to-screen projection).

Modelling conventions:
- JavaScript `undefined` arguments are `Option.none`; a thrown
  `DeveloperError` / `RuntimeError` is `Except.error` with a `JsError`
  value naming the message.
- Object identity (`===` on label objects / DOM elements) is modelled by
  a `ref : Nat` field unique per allocated object, so structural equality
  of the Lean values coincides with JavaScript reference equality.
- Numbers are rationals (`ℚ`), faithful to JavaScript arithmetic on the
  values the claims involve.
- The `collectionChanged` event is modelled by an `events` log of the
  raised `(added, removed)` argument pairs plus an explicit listener
  function, so re-entrant mutation during a raise is expressible.
-/

namespace PLC

/-- A 3D vector, as Cesium `Cartesian3`. -/
structure Cartesian3 where
  x : ℚ
  y : ℚ
  z : ℚ
deriving DecidableEq

/-- `Cartesian3.dot(left, right)`. -/
def Cartesian3.dot (a b : Cartesian3) : ℚ :=
  a.x * b.x + a.y * b.y + a.z * b.z

/-- A 2D screen coordinate (result of `scene.cartesianToCanvasCoordinates`). -/
structure Cartesian2 where
  x : ℚ
  y : ℚ
deriving DecidableEq

/-- Modelled from the spec: a `DOMLabel` (its source file is not part of the
extracted sources; the spec data model lists identity, 3D world position,
display text, visibility flag, pixel offsets, and an owned DOM element).
`ref` is the identity of the label object and of its owned DOM element
(`label.label` / `label._label`); `_show`, `_position`, `_vOffset`,
`_hOffset` are the fields `DOMLabelCollection` reads. -/
structure DOMLabel where
  ref : Nat
  id : Nat
  _show : Bool
  _position : Cartesian3
  _vOffset : ℚ
  _hOffset : ℚ
deriving DecidableEq

/-- Cesium `AssociativeArray`: an insertion-ordered map with unique keys.
`entries` holds the key/value pairs in insertion order; the `_hash` and
`_array` of the original coincide with the two projections because the
collection always stores a label under its own unique id. -/
structure AssocArray (α : Type) where
  entries : List (Nat × α)
deriving DecidableEq

namespace AssocArray

/-- The empty associative array. -/
def empty {α : Type} : AssocArray α := ⟨[]⟩

/-- `AssociativeArray.prototype.get(key)`. -/
def get {α : Type} (a : AssocArray α) (k : Nat) : Option α :=
  (a.entries.find? (fun p => p.1 == k)).map (fun p => p.2)

/-- `AssociativeArray.prototype.contains(key)` (`defined(this._hash[key])`). -/
def containsKey {α : Type} (a : AssocArray α) (k : Nat) : Bool :=
  (a.get k).isSome

/-- `AssociativeArray.prototype.remove(key)`: removes the entry if present
and reports whether it was present. -/
def remove {α : Type} (a : AssocArray α) (k : Nat) : AssocArray α × Bool :=
  if (a.get k).isSome then
    (⟨a.entries.filter (fun p => p.1 ≠ k)⟩, true)
  else
    (a, false)

/-- `AssociativeArray.prototype.set(key, value)`: a no-op when the stored
value is identical, otherwise removes any old entry and pushes the new
value at the end. -/
def set {α : Type} [DecidableEq α] (a : AssocArray α) (k : Nat) (v : α) : AssocArray α :=
  if a.get k = some v then a
  else ⟨(a.remove k).1.entries ++ [(k, v)]⟩

/-- `AssociativeArray.prototype.values`. -/
def values {α : Type} (a : AssocArray α) : List α :=
  a.entries.map (fun p => p.2)

/-- `AssociativeArray.prototype.length`. -/
def length {α : Type} (a : AssocArray α) : Nat :=
  a.entries.length

/-- `AssociativeArray.prototype.removeAll()`. -/
def clear {α : Type} (_ : AssocArray α) : AssocArray α := ⟨[]⟩

end AssocArray

/-- The thrown errors of the widget, one constructor per message. -/
inductive JsError where
  /-- `DeveloperError('container is required.')` -/
  | containerRequired
  /-- `DeveloperError('scene is required.')` -/
  | sceneRequired
  /-- `DeveloperError('value is require')` (the `show` setter) -/
  | valueRequired
  /-- `DeveloperError('label is required.')` -/
  | labelRequired
  /-- `DeveloperError('id is required.')` -/
  | idRequired
  /-- `RuntimeError('A label with id <id> already exists in this collection.')` -/
  | duplicateId (id : Nat)
deriving DecidableEq

/-- A CSS `display` value as far as the widget distinguishes them. -/
inductive DisplayMode where
  /-- `display: block` -/
  | block
  /-- `display: none` -/
  | hidden
  /-- any value the widget never wrote (the initial style) -/
  | initial
deriving DecidableEq

/-- The state of a `DOMLabelCollection` instance together with the
observable effects on its container and event sink.
`containerChildren` lists the `ref`s of the label elements currently
appended to `this._container`, in order; `events` is the log of
`collectionChanged.raiseEvent` calls as `(addedArray, removedArray)`
pairs; `hookAttached` records whether `renderFrame` is registered on
`scene.preRender`. The back-reference `label._domlabelCollection`
assignments are not observable through any claim and are not modelled. -/
structure CollectionState where
  _labels : AssocArray DOMLabel
  _addedLabels : AssocArray DOMLabel
  _removedLabels : AssocArray DOMLabel
  _show : Bool
  _firing : Bool
  _refire : Bool
  containerChildren : List Nat
  containerDisplay : DisplayMode
  hookAttached : Bool
  events : List (List DOMLabel × List DOMLabel)
deriving DecidableEq

/-- A `collectionChanged` subscriber: receives the state after the raise is
logged together with the `addedArray` and `removedArray` arguments, and
returns the state after any re-entrant mutations it performs. -/
def Listener : Type :=
  CollectionState → List DOMLabel → List DOMLabel → CollectionState

/-- A subscriber that performs no mutation. -/
def noopListener : Listener := fun st _ _ => st

/-- `this._collectionChanged.raiseEvent(collection, addedArray, removedArray)`:
logs the raise and runs the subscriber. -/
def raiseEvent (L : Listener) (st : CollectionState)
    (addedArray removedArray : List DOMLabel) : CollectionState :=
  L { st with events := st.events ++ [(addedArray, removedArray)] } addedArray removedArray

/-- The `do ... while (collection._refire)` loop of `fireChangedEvent`,
with explicit fuel bounding the number of replays (the source loops until
a raise triggers no further re-entrant mutation). -/
def fireLoop (L : Listener) : Nat → CollectionState → CollectionState
  | 0, st => st
  | Nat.succ n, st =>
      let addedArray := st._addedLabels.values
      let removedArray := st._removedLabels.values
      let st1 := { st with
        _refire := false
        _addedLabels := AssocArray.empty
        _removedLabels := AssocArray.empty }
      let st2 := raiseEvent L st1 addedArray removedArray
      if st2._refire then fireLoop L n st2 else st2

/-- `fireChangedEvent(collection)`: a re-entrant call during a raise only
records `_refire`; otherwise, when there are pending deltas, it raises and
replays until quiescent. -/
def fireChangedEvent (L : Listener) (n : Nat) (st : CollectionState) : CollectionState :=
  if st._firing then
    { st with _refire := true }
  else if st._addedLabels.length ≠ 0 ∨ st._removedLabels.length ≠ 0 then
    { fireLoop L n { st with _firing := true } with _firing := false }
  else
    st

/-- The `DOMLabelCollection(container, scene, show)` constructor. The
container argument is its element `ref`; the scene argument is a unit
witness of definedness (the stored scene is only consulted by
`renderFrame`, which receives it explicitly). `containerChildren` tracks
only label elements, so it starts empty. -/
def mkDOMLabelCollection (container : Option Nat) (scene : Option Unit)
    (showArg : Option Bool) : Except JsError CollectionState :=
  match container with
  | Option.none => Except.error JsError.containerRequired
  | some _ =>
    match scene with
    | Option.none => Except.error JsError.sceneRequired
    | some _ => Except.ok {
        _labels := AssocArray.empty
        _addedLabels := AssocArray.empty
        _removedLabels := AssocArray.empty
        _show := showArg.getD true
        _firing := false
        _refire := false
        containerChildren := []
        containerDisplay := DisplayMode.initial
        hookAttached := true
        events := [] }

/-- `DOMLabelCollection.prototype.add(label)`. The `instanceof` coercion of
a plain options object into a `DOMLabel` is outside the model: the
argument is already a `DOMLabel`. -/
def add (L : Listener) (n : Nat) (st : CollectionState) (label : Option DOMLabel) :
    Except JsError (CollectionState × DOMLabel) :=
  match label with
  | Option.none => Except.error JsError.labelRequired
  | some l =>
    if st._labels.containsKey l.id then
      Except.error (JsError.duplicateId l.id)
    else
      let st1 := { st with containerChildren := st.containerChildren ++ [l.ref] }
      let st2 := { st1 with _labels := st1._labels.set l.id l }
      let rm := st2._removedLabels.remove l.id
      let st3 :=
        if rm.2 then { st2 with _removedLabels := rm.1 }
        else { st2 with _addedLabels := st2._addedLabels.set l.id l }
      Except.ok (fireChangedEvent L n st3, l)

/-- The observable collection state after a call of `add`: a thrown error
leaves the state as it was. -/
def addOrKeep (L : Listener) (n : Nat) (st : CollectionState)
    (label : Option DOMLabel) : CollectionState :=
  match add L n st label with
  | Except.ok p => p.1
  | Except.error _ => st

/-- `DOMLabelCollection.prototype.removeById(id)`. `container.removeChild`
is `List.erase` on the children (the element of a stored label is a child,
and appears once). Note the source removes the id from `_labels` twice and,
when the id was not pending in `_addedLabels`, calls
`_removedLabels.remove(id)` (not `set`). -/
def removeById (L : Listener) (n : Nat) (st : CollectionState) (id : Option Nat) :
    Except JsError (CollectionState × Bool) :=
  match id with
  | Option.none => Except.ok (st, false)
  | some i =>
    match st._labels.get i with
    | Option.none => Except.ok (st, false)
    | some label =>
      let st1 := { st with _labels := (st._labels.remove i).1 }
      let rmAdded := st1._addedLabels.remove i
      let st2 :=
        if rmAdded.2 then { st1 with _addedLabels := rmAdded.1 }
        else { st1 with _removedLabels := (st1._removedLabels.remove i).1 }
      let st3 := { st2 with _labels := (st2._labels.remove i).1 }
      let st4 := { st3 with containerChildren := st3.containerChildren.erase label.ref }
      Except.ok (fireChangedEvent L n st4, true)

/-- `DOMLabelCollection.prototype.remove(label)`. -/
def remove (L : Listener) (n : Nat) (st : CollectionState) (label : Option DOMLabel) :
    Except JsError (CollectionState × Bool) :=
  match label with
  | Option.none => Except.ok (st, false)
  | some l => removeById L n st (some l.id)

/-- `DOMLabelCollection.prototype.contains(label)`: reference equality of
the stored object with the argument. -/
def containsLabel (st : CollectionState) (label : Option DOMLabel) :
    Except JsError Bool :=
  match label with
  | Option.none => Except.error JsError.labelRequired
  | some l => Except.ok (decide (st._labels.get l.id = some l))

/-- `DOMLabelCollection.prototype.getById(id)`. -/
def getById (st : CollectionState) (id : Option Nat) :
    Except JsError (Option DOMLabel) :=
  match id with
  | Option.none => Except.error JsError.idRequired
  | some i => Except.ok (st._labels.get i)

/-- The loop body of `DOMLabelCollection.prototype.removeAll`: a label that
is pending in `_addedLabels` is skipped, any other label has its element
detached and is recorded in `_removedLabels`. -/
def removeAllStep (st : CollectionState) (label : DOMLabel) : CollectionState :=
  match st._addedLabels.get label.id with
  | some _ => st
  | Option.none =>
    { st with
      containerChildren := st.containerChildren.erase label.ref
      _removedLabels := st._removedLabels.set label.id label }

/-- `DOMLabelCollection.prototype.removeAll()`. -/
def removeAll (L : Listener) (n : Nat) (st : CollectionState) : CollectionState :=
  let st1 := st._labels.values.foldl removeAllStep st
  let st2 := { st1 with
    _labels := st1._labels.clear
    _addedLabels := st1._addedLabels.clear }
  fireChangedEvent L n st2

/-- The `show` property setter. -/
def setShow (st : CollectionState) (value : Option Bool) :
    Except JsError CollectionState :=
  match value with
  | Option.none => Except.error JsError.valueRequired
  | some v =>
    if v = st._show then Except.ok st
    else
      let st1 := { st with _show := v }
      if v then
        Except.ok { st1 with containerDisplay := DisplayMode.block, hookAttached := true }
      else
        Except.ok { st1 with containerDisplay := DisplayMode.hidden, hookAttached := false }

/-- The state of a label's DOM element the frame loop reads and writes:
the `style.display`, `style.top` and `style.left` values (`Option.none`
for a style never assigned; assigned values are the rational number of
pixels of the `'<q>px'` string the source builds), and the layout metrics
`offsetWidth` / `offsetHeight`, which the loop only reads. -/
structure ElemState where
  display : DisplayMode
  top : Option ℚ
  left : Option ℚ
  offsetWidth : ℚ
  offsetHeight : ℚ
deriving DecidableEq

/-- The DOM elements of the labels, keyed by element `ref`. -/
abbrev DOMState : Type := List (Nat × ElemState)

/-- The element stored under `ref`. -/
def DOMState.get (d : DOMState) (ref : Nat) : Option ElemState :=
  (List.find? (fun p => p.1 == ref) d).map (fun p => p.2)

/-- Update the element stored under `ref` in place. -/
def DOMState.update (d : DOMState) (ref : Nat) (f : ElemState → ElemState) : DOMState :=
  d.map (fun p => if p.1 = ref then (p.1, f p.2) else p)

/-- The host scene interface `renderFrame` consumes: `scene.camera.position`
and `scene.cartesianToCanvasCoordinates`, the latter returning
`Option.none` when the point does not project onto the canvas. -/
structure Scene where
  cameraPosition : Cartesian3
  cartesianToCanvasCoordinates : Cartesian3 → Option Cartesian2

/-- The body of `renderFrame`'s loop for one label: a hidden label is
skipped; a label behind the camera gets `display: none`; otherwise the
position is projected and, only when the projection is defined, the
element is shown and positioned (offset plus projected point, centred by
half the element's own size). When the projection is undefined the
element's style is left untouched. -/
def processLabel (scene : Scene) (dom : DOMState) (label : DOMLabel) : DOMState :=
  if label._show then
    if Cartesian3.dot scene.cameraPosition label._position < 0 then
      dom.update label.ref (fun e => { e with display := DisplayMode.hidden })
    else
      match scene.cartesianToCanvasCoordinates label._position with
      | some pos =>
        dom.update label.ref (fun e =>
          { e with
            display := DisplayMode.block
            top := some (label._vOffset + pos.y - e.offsetHeight / 2)
            left := some (label._hOffset + pos.x - e.offsetWidth / 2) })
      | Option.none => dom
  else
    dom

/-- `renderFrame`, the `scene.preRender` subscriber: a no-op unless the
collection is shown and non-empty. It writes only element styles (the
`...Scratch` variables of the source are module-level temporaries), so
the embedding returns the new DOM state and the collection state is
unchanged by construction. -/
def renderFrame (scene : Scene) (st : CollectionState) (dom : DOMState) : DOMState :=
  if st._show = true ∧ st._labels.length ≠ 0 then
    st._labels.values.foldl (processLabel scene) dom
  else
    dom

/-- A subscriber that, on the first raise only, re-entrantly calls
`add(l1)` followed by `removeById(l1.id)` on the collection — the rapid
add-then-remove of the same id within one notification cycle. (During a
raise `_firing` is set, so the listener argument threaded into the nested
calls is never consulted: `fireChangedEvent` only records `_refire`.) -/
def addRemoveListener (l1 : DOMLabel) : Listener := fun st _ _ =>
  if st.events.length = 1 then
    match add noopListener 1 st (some l1) with
    | Except.ok p =>
      match removeById noopListener 1 p.1 (some l1.id) with
      | Except.ok q => q.1
      | Except.error _ => p.1
    | Except.error _ => st
  else
    st

/-- The observable collection state after a call of `removeById`. -/
def removeByIdState (L : Listener) (n : Nat) (st : CollectionState)
    (id : Option Nat) : CollectionState :=
  match removeById L n st id with
  | Except.ok p => p.1
  | Except.error _ => st

/-- The boolean a `removeById` call returns. -/
def removeByIdResult (L : Listener) (n : Nat) (st : CollectionState)
    (id : Option Nat) : Bool :=
  match removeById L n st id with
  | Except.ok p => p.2
  | Except.error _ => false

/-- A sample label (object `ref` 100, id 1), in front of the camera of
`sampleScene`. -/
def label1 : DOMLabel := ⟨100, 1, true, ⟨1, 0, 0⟩, 0, 0⟩

/-- A second sample label (object `ref` 101, id 2). -/
def label2 : DOMLabel := ⟨101, 2, true, ⟨1, 0, 0⟩, 0, 0⟩

/-- A distinct label object carrying the same id as `label1`. -/
def label1Alt : DOMLabel := ⟨102, 1, true, ⟨1, 0, 0⟩, 0, 0⟩

/-- A label whose world position is behind the camera of `sampleScene`. -/
def labelBehind : DOMLabel := ⟨100, 1, true, ⟨-1, 0, 0⟩, 0, 0⟩

/-- A sample element style: currently displayed, never positioned. -/
def sampleElem : ElemState := ⟨DisplayMode.block, Option.none, Option.none, 10, 10⟩

/-- A scene whose camera sits at `(1,0,0)` and whose projection always
succeeds at `(5,7)`. -/
def sampleScene : Scene := ⟨⟨1, 0, 0⟩, fun _ => some ⟨5, 7⟩⟩

/-- A scene whose camera sits at the origin and whose projection never
succeeds (every point is off-screen). -/
def offscreenScene : Scene := ⟨⟨0, 0, 0⟩, fun _ => Option.none⟩

/-- A quiescent collection holding `label1`: no pending deltas, not firing. -/
def quiescentState : CollectionState :=
  { _labels := ⟨[(1, label1)]⟩
    _addedLabels := ⟨[]⟩
    _removedLabels := ⟨[]⟩
    _show := true
    _firing := false
    _refire := false
    containerChildren := [100]
    containerDisplay := DisplayMode.block
    hookAttached := true
    events := [] }

/-- The collection state reached at line 203 of a first `add(label1)` on a
fresh collection, just before its `fireChangedEvent` call: `label1` stored
and pending in the added set. -/
def pendingAddState : CollectionState :=
  { quiescentState with _addedLabels := ⟨[(1, label1)]⟩ }

/-- `pendingAddState` as seen from inside a `collectionChanged` raise
(`_firing` set): the mid-notification state with a pending-added label. -/
def midNotifyState : CollectionState :=
  { pendingAddState with _firing := true }

/-- The collection state `new DOMLabelCollection(container, scene, false)`
produces: `_show` is `false` but the pre-render hook is attached and the
container was never hidden. -/
def hiddenFreshState : CollectionState :=
  { _labels := ⟨[]⟩
    _addedLabels := ⟨[]⟩
    _removedLabels := ⟨[]⟩
    _show := false
    _firing := false
    _refire := false
    containerChildren := []
    containerDisplay := DisplayMode.initial
    hookAttached := true
    events := [] }

/-- `quiescentState` with `labelBehind` stored instead of `label1`. -/
def behindState : CollectionState :=
  { quiescentState with _labels := ⟨[(1, labelBehind)]⟩ }

end PLC

deriving instance DecidableEq for Except

namespace PLC

theorem AssocArray.get_of_entries_nil {α : Type} (a : AssocArray α) (k : Nat)
    (h : a.entries = []) : a.get k = Option.none := by
  simp [AssocArray.get, h]

theorem AssocArray.get_filter_ne {α : Type} (l : List (Nat × α)) (k : Nat) :
    (AssocArray.mk (l.filter (fun p => p.1 ≠ k))).get k = Option.none := by
  have hf : List.find? (fun p => p.1 == k) (l.filter (fun p => decide (p.1 ≠ k))) =
      Option.none := by
    rw [List.find?_eq_none]
    intro p hp
    have hm := List.of_mem_filter hp
    simp at hm ⊢
    exact hm
  simp [AssocArray.get, hf]

theorem AssocArray.remove_of_get_none {α : Type} (a : AssocArray α) (k : Nat)
    (h : a.get k = Option.none) : a.remove k = (a, false) := by
  simp [AssocArray.remove, h]

theorem AssocArray.get_remove_self {α : Type} (a : AssocArray α) (k : Nat) :
    (a.remove k).1.get k = Option.none := by
  cases ho : a.get k with
  | none => rw [AssocArray.remove_of_get_none a k ho]; exact ho
  | some v =>
    have : a.remove k = (⟨a.entries.filter (fun p => p.1 ≠ k)⟩, true) := by
      simp [AssocArray.remove, ho]
    rw [this]
    exact AssocArray.get_filter_ne a.entries k

theorem AssocArray.length_of_entries_nil {α : Type} (a : AssocArray α)
    (h : a.entries = []) : a.length = 0 := by
  simp [AssocArray.length, h]

end PLC

namespace PLC

/-- C1: re-entrant calls to `fireChangedEvent` made while `collectionChanged`
is being raised only set `_refire` and return (deferred, never nested), and
a rapid `add(label2)` followed by `removeById(label2.id)` performed by a
subscriber within one notification cycle results in exactly one replayed
raise for that batch: the raise log of the whole cycle is the initial raise
`([label1], [])` followed by the single coalesced replay `([], [])`. -/
theorem fireChangedEvent_defers_and_coalesces :
    (∀ (L : Listener) (n : Nat) (st : CollectionState), st._firing = true →
      fireChangedEvent L n st = { st with _refire := true }) ∧
    (fireChangedEvent (addRemoveListener label2) 2 pendingAddState).events =
      [([label1], []), ([], [])] := by
  constructor
  · intro L n st h
    simp [fireChangedEvent, h]
  · decide

/-- Witness for `fireChangedEvent_defers_and_coalesces` at the concrete
mid-notification state. -/
theorem fireChangedEvent_defers_and_coalesces_witness :
    fireChangedEvent noopListener 1 midNotifyState =
      { midNotifyState with _refire := true } :=
  fireChangedEvent_defers_and_coalesces.1 noopListener 1 midNotifyState (by decide)

/-- C5: `add` with a label whose id is already stored always throws the
duplicate-id `RuntimeError`, and the observable collection state after the
failed call is unchanged. -/
theorem add_duplicate_id_always_fails (L : Listener) (n : Nat)
    (st : CollectionState) (l : DOMLabel)
    (h : st._labels.containsKey l.id = true) :
    add L n st (some l) = Except.error (JsError.duplicateId l.id) ∧
    addOrKeep L n st (some l) = st := by
  refine ⟨?_, ?_⟩ <;> simp [add, addOrKeep, h]

/-- Witness for `add_duplicate_id_always_fails`: adding a second label with
id 1 to the collection already holding `label1`. -/
theorem add_duplicate_id_always_fails_witness :
    add noopListener 1 quiescentState (some label1Alt) =
      Except.error (JsError.duplicateId label1Alt.id) ∧
    addOrKeep noopListener 1 quiescentState (some label1Alt) = quiescentState :=
  add_duplicate_id_always_fails noopListener 1 quiescentState label1Alt (by decide)

/-- C7 counterexample: `removeById(undefined)` and `remove(undefined)`
return `false` normally instead of throwing. -/
theorem remove_undefined_returns_false_counterexample :
    removeById noopListener 1 quiescentState Option.none =
      Except.ok (quiescentState, false) ∧
    remove noopListener 1 quiescentState Option.none =
      Except.ok (quiescentState, false) := by
  exact ⟨rfl, rfl⟩

/-- C7 (amended): the constructor, the `show` setter, `add`, `contains` and
`getById` throw immediately on a missing required argument, and `add`
throws on a duplicate id; `remove` and `removeById` called with an
undefined argument are the exception: they return `false` normally. -/
theorem precondition_errors_amended (L : Listener) (n : Nat)
    (st : CollectionState) :
    mkDOMLabelCollection Option.none (some ()) Option.none =
      Except.error JsError.containerRequired ∧
    mkDOMLabelCollection (some 0) Option.none Option.none =
      Except.error JsError.sceneRequired ∧
    setShow st Option.none = Except.error JsError.valueRequired ∧
    add L n st Option.none = Except.error JsError.labelRequired ∧
    containsLabel st Option.none = Except.error JsError.labelRequired ∧
    getById st Option.none = Except.error JsError.idRequired ∧
    (∀ l : DOMLabel, st._labels.containsKey l.id = true →
      add L n st (some l) = Except.error (JsError.duplicateId l.id)) ∧
    removeById L n st Option.none = Except.ok (st, false) ∧
    remove L n st Option.none = Except.ok (st, false) := by
  refine ⟨rfl, rfl, rfl, rfl, rfl, rfl, ?_, rfl, rfl⟩
  intro l h
  simp [add, h]

/-- Witness for `precondition_errors_amended`, discharging the duplicate-id
hypothesis at the collection holding `label1`. -/
theorem precondition_errors_amended_witness :
    add noopListener 1 quiescentState (some label1Alt) =
      Except.error (JsError.duplicateId label1Alt.id) :=
  (precondition_errors_amended noopListener 1 quiescentState).2.2.2.2.2.2.1
    label1Alt (by decide)

/-- C8 counterexample: on the collection `new DOMLabelCollection(c, s, false)`
produces, setting `show` to `false` is a plain no-op — the container is not
hidden and the pre-render hook stays attached, so `renderFrame` keeps being
invoked. -/
theorem setShow_same_value_noop_counterexample :
    mkDOMLabelCollection (some 0) (some ()) (some false) =
      Except.ok hiddenFreshState ∧
    setShow hiddenFreshState (some false) = Except.ok hiddenFreshState ∧
    hiddenFreshState.hookAttached = true ∧
    hiddenFreshState.containerDisplay ≠ DisplayMode.hidden := by
  refine ⟨rfl, rfl, rfl, by decide⟩

/-- C8 (amended): setting `show` to a value different from the current one
behaves as claimed — to `false` it hides the container and detaches the
pre-render hook, to `true` it shows the container and re-attaches the hook;
setting it to the current value changes nothing. -/
theorem setShow_toggle_amended (st : CollectionState) :
    (st._show = true → setShow st (some false) = Except.ok
      { st with
          _show := false
          containerDisplay := DisplayMode.hidden
          hookAttached := false }) ∧
    (st._show = false → setShow st (some true) = Except.ok
      { st with
          _show := true
          containerDisplay := DisplayMode.block
          hookAttached := true }) ∧
    setShow st (some st._show) = Except.ok st := by
  refine ⟨?_, ?_, ?_⟩
  · intro h; simp [setShow, h]
  · intro h; simp [setShow, h]
  · simp [setShow]

/-- Witness for `setShow_toggle_amended`: hiding the shown collection
`quiescentState`. -/
theorem setShow_toggle_amended_witness :
    setShow quiescentState (some false) = Except.ok
      { quiescentState with
          _show := false
          containerDisplay := DisplayMode.hidden
          hookAttached := false } :=
  (setShow_toggle_amended quiescentState).1 (by decide)

/-- C9: `contains` answers `true` exactly when the object stored under the
argument's id is the argument itself; a different label object carrying the
same id as a stored label yields `false`. -/
theorem contains_requires_same_instance (st : CollectionState) (l : DOMLabel) :
    (containsLabel st (some l) = Except.ok true ↔ st._labels.get l.id = some l) ∧
    (∀ l' : DOMLabel, l'.id = l.id → l' ≠ l → st._labels.get l.id = some l →
      containsLabel st (some l') = Except.ok false) := by
  constructor
  · simp [containsLabel]
  · intro l' hid hne hget
    have hg : st._labels.get l'.id = some l := by rw [hid, hget]
    simp [containsLabel, hg]
    exact fun h => hne h.symm

/-- Witness for `contains_requires_same_instance`: the stored `label1` is
contained, the distinct object `label1Alt` with the same id is not. -/
theorem contains_requires_same_instance_witness :
    containsLabel quiescentState (some label1) = Except.ok true ∧
    containsLabel quiescentState (some label1Alt) = Except.ok false :=
  ⟨(contains_requires_same_instance quiescentState label1).1.mpr (by decide),
   (contains_requires_same_instance quiescentState label1).2 label1Alt
     (by decide) (by decide) (by decide)⟩

/-- C10: when the collection's `show` flag is `false` or its label map is
empty, `renderFrame` leaves every element style unchanged (and by
construction of the embedding it writes nothing else: the source touches
only element styles and module-level scratch temporaries). -/
theorem renderFrame_noop_when_hidden_or_empty (scene : Scene)
    (st : CollectionState) (dom : DOMState)
    (h : st._show = false ∨ st._labels.length = 0) :
    renderFrame scene st dom = dom := by
  rcases h with h | h <;> simp [renderFrame, h]

/-- Witness for `renderFrame_noop_when_hidden_or_empty` on the hidden fresh
collection. -/
theorem renderFrame_noop_when_hidden_or_empty_witness :
    renderFrame sampleScene hiddenFreshState [(100, sampleElem)] =
      [(100, sampleElem)] :=
  renderFrame_noop_when_hidden_or_empty sampleScene hiddenFreshState
    [(100, sampleElem)] (Or.inl (by decide))

end PLC

namespace PLC

theorem fireChangedEvent_fields_of_no_pending (L : Listener) (n : Nat)
    (st : CollectionState)
    (ha : st._addedLabels.entries = []) (hr : st._removedLabels.entries = []) :
    (fireChangedEvent L n st).containerChildren = st.containerChildren ∧
    (fireChangedEvent L n st)._labels = st._labels := by
  by_cases hf : st._firing
  · simp [fireChangedEvent, hf]
  · simp [fireChangedEvent, hf, AssocArray.length_of_entries_nil _ ha,
      AssocArray.length_of_entries_nil _ hr]

/-- C6: `removeById` returns `false` and changes nothing when no label with
the id is stored; when a label with the id is stored (and the pending
delta sets are quiescent, so no notification interferes) it returns `true`,
detaches the label's element from the container, and the id is no longer in
the collection. -/
theorem removeById_contract (L : Listener) (n : Nat) (st : CollectionState)
    (i : Nat) :
    (st._labels.get i = Option.none →
      removeById L n st (some i) = Except.ok (st, false)) ∧
    (∀ l : DOMLabel, st._labels.get i = some l →
      st._addedLabels.entries = [] → st._removedLabels.entries = [] →
      removeByIdResult L n st (some i) = true ∧
      (removeByIdState L n st (some i)).containerChildren =
        st.containerChildren.erase l.ref ∧
      (removeByIdState L n st (some i))._labels.get i = Option.none) := by
  constructor
  · intro h
    simp [removeById, h]
  · intro l hget hadd hrem
    have hA : st._addedLabels.remove i = (st._addedLabels, false) :=
      AssocArray.remove_of_get_none _ _ (AssocArray.get_of_entries_nil _ _ hadd)
    have hR : st._removedLabels.remove i = (st._removedLabels, false) :=
      AssocArray.remove_of_get_none _ _ (AssocArray.get_of_entries_nil _ _ hrem)
    have hL2 : (st._labels.remove i).1.remove i = ((st._labels.remove i).1, false) :=
      AssocArray.remove_of_get_none _ _ (AssocArray.get_remove_self _ _)
    have hred : removeById L n st (some i) = Except.ok
        (fireChangedEvent L n
          { st with
              _labels := (st._labels.remove i).1
              containerChildren := st.containerChildren.erase l.ref }, true) := by
      simp [removeById, hget, hA, hR, hL2]
    have hf := fireChangedEvent_fields_of_no_pending L n
      { st with
          _labels := (st._labels.remove i).1
          containerChildren := st.containerChildren.erase l.ref } hadd hrem
    refine ⟨?_, ?_, ?_⟩
    · simp [removeByIdResult, hred]
    · simp only [removeByIdState, hred]
      exact hf.1
    · simp only [removeByIdState, hred]
      rw [hf.2]
      exact AssocArray.get_remove_self _ _

/-- Witness for `removeById_contract`: removing id 1 from the collection
holding `label1`. -/
theorem removeById_contract_witness :
    removeByIdResult noopListener 1 quiescentState (some 1) = true ∧
    (removeByIdState noopListener 1 quiescentState (some 1)).containerChildren =
      quiescentState.containerChildren.erase label1.ref ∧
    (removeByIdState noopListener 1 quiescentState (some 1))._labels.get 1 =
      Option.none :=
  (removeById_contract noopListener 1 quiescentState 1).2 label1 (by decide)
    (by decide) (by decide)

end PLC

namespace PLC

theorem DOMState.get_update_self (d : DOMState) (r : Nat)
    (f : ElemState → ElemState) :
    (d.update r f).get r = (d.get r).map f := by
  induction d with
  | nil => rfl
  | cons p t ih =>
    by_cases hp : p.1 = r
    · simp [DOMState.update, DOMState.get, hp]
    · simp only [DOMState.update, DOMState.get, List.map_cons, List.find?,
        if_neg hp] at ih ⊢
      rw [show (p.1 == r) = false by simpa using hp]
      exact ih

theorem DOMState.get_update_ne (d : DOMState) (r k : Nat)
    (f : ElemState → ElemState) (h : r ≠ k) :
    (d.update r f).get k = d.get k := by
  induction d with
  | nil => rfl
  | cons p t ih =>
    by_cases hp : p.1 = r
    · simp only [DOMState.update, DOMState.get, List.map_cons, List.find?,
        if_pos hp] at ih ⊢
      rw [show (p.1 == k) = false by simp [hp, h]]
      exact ih
    · simp only [DOMState.update, DOMState.get, List.map_cons, List.find?,
        if_neg hp] at ih ⊢
      by_cases hk : p.1 = k
      · rw [show (p.1 == k) = true by simpa using hk]
      · rw [show (p.1 == k) = false by simpa using hk]
        exact ih

theorem processLabel_get_ne (scene : Scene) (dom : DOMState) (l : DOMLabel)
    (k : Nat) (h : l.ref ≠ k) :
    (processLabel scene dom l).get k = dom.get k := by
  unfold processLabel
  by_cases hs : l._show
  · by_cases hd : Cartesian3.dot scene.cameraPosition l._position < 0
    · simp [hs, hd, DOMState.get_update_ne _ _ _ _ h]
    · cases hp : scene.cartesianToCanvasCoordinates l._position with
      | none => simp [hs, hd, hp]
      | some pos => simp [hs, hd, hp, DOMState.get_update_ne _ _ _ _ h]
  · simp [hs]

theorem foldl_processLabel_get_ne (scene : Scene) (ls : List DOMLabel)
    (dom : DOMState) (k : Nat) (h : ∀ l ∈ ls, l.ref ≠ k) :
    (ls.foldl (processLabel scene) dom).get k = dom.get k := by
  induction ls generalizing dom with
  | nil => rfl
  | cons a t ih =>
    rw [List.foldl_cons, ih _ (fun l hl => h l (List.mem_cons_of_mem a hl)),
      processLabel_get_ne scene dom a k (h a (List.mem_cons_self a t))]

theorem processLabel_get_congr (scene : Scene) (d d' : DOMState) (l : DOMLabel)
    (h : d.get l.ref = d'.get l.ref) :
    (processLabel scene d l).get l.ref = (processLabel scene d' l).get l.ref := by
  unfold processLabel
  by_cases hs : l._show
  · by_cases hd : Cartesian3.dot scene.cameraPosition l._position < 0
    · simp [hs, hd, DOMState.get_update_self, h]
    · cases hp : scene.cartesianToCanvasCoordinates l._position with
      | none => simp [hs, hd, hp, h]
      | some pos => simp [hs, hd, hp, DOMState.get_update_self, h]
  · simp [hs, h]

theorem renderFrame_get_of_mem (scene : Scene) (st : CollectionState)
    (dom : DOMState) (l : DOMLabel)
    (hshow : st._show = true) (hmem : l ∈ st._labels.values)
    (hnodup : (st._labels.values.map (fun x => x.ref)).Nodup) :
    (renderFrame scene st dom).get l.ref = (processLabel scene dom l).get l.ref := by
  have hlen : st._labels.length ≠ 0 := by
    intro h0
    have : st._labels.entries = [] := List.length_eq_zero.mp h0
    rw [AssocArray.values, this] at hmem
    cases hmem
  rw [show renderFrame scene st dom = st._labels.values.foldl (processLabel scene) dom by
    simp [renderFrame, hshow, hlen]]
  obtain ⟨pre, post, hsplit⟩ := List.append_of_mem hmem
  rw [hsplit] at hnodup ⊢
  rw [List.map_append, List.map_cons, List.nodup_append] at hnodup
  obtain ⟨-, hnodup2, hdisj⟩ := hnodup
  have hpre : ∀ x ∈ pre, x.ref ≠ l.ref := by
    intro x hx heq
    exact hdisj (List.mem_map_of_mem _ hx) (by rw [heq]; exact List.mem_cons_self _ _)
  have hpost : ∀ x ∈ post, x.ref ≠ l.ref := by
    intro x hx heq
    have := List.nodup_cons.mp hnodup2
    exact this.1 (by rw [← heq]; exact List.mem_map_of_mem _ hx)
  rw [List.foldl_append, List.foldl_cons,
    foldl_processLabel_get_ne scene post _ l.ref hpost]
  exact processLabel_get_congr scene _ dom l
    (foldl_processLabel_get_ne scene pre dom l.ref hpre)

end PLC

namespace PLC

/-- C4: during per-frame synchronization, a visible label whose world
position is behind the camera (negative dot product with the camera
position) has its element set to `display: none`, and its `top`/`left`
screen position is never assigned in that frame (they keep their previous
values). -/
theorem renderFrame_behind_camera_hides (scene : Scene) (st : CollectionState)
    (dom : DOMState) (l : DOMLabel) (e : ElemState)
    (hshow : st._show = true) (hmem : l ∈ st._labels.values)
    (hl : l._show = true)
    (hnodup : (st._labels.values.map (fun x => x.ref)).Nodup)
    (hdot : Cartesian3.dot scene.cameraPosition l._position < 0)
    (hdom : dom.get l.ref = some e) :
    (renderFrame scene st dom).get l.ref =
      some { e with display := DisplayMode.hidden } := by
  rw [renderFrame_get_of_mem scene st dom l hshow hmem hnodup]
  unfold processLabel
  simp [hl, hdot, DOMState.get_update_self, hdom]

/-- Witness for `renderFrame_behind_camera_hides`: `labelBehind` at
`(-1,0,0)` against the camera at `(1,0,0)`. -/
theorem renderFrame_behind_camera_hides_witness :
    (renderFrame sampleScene behindState [(100, sampleElem)]).get
        labelBehind.ref =
      some { sampleElem with display := DisplayMode.hidden } :=
  renderFrame_behind_camera_hides sampleScene behindState [(100, sampleElem)]
    labelBehind sampleElem (by decide) (by decide) (by decide) (by decide)
    (by simp [sampleScene, labelBehind, Cartesian3.dot]) (by decide)

/-- C3 counterexample: with a projection that returns undefined (and the
label not behind the camera), `renderFrame` leaves the element's style
completely untouched — in particular the element stays at `display: block`
and is not hidden, contrary to the claim. -/
theorem renderFrame_offscreen_not_hidden_counterexample :
    renderFrame offscreenScene quiescentState [(100, sampleElem)] =
      [(100, sampleElem)] ∧
    sampleElem.display = DisplayMode.block := by
  refine ⟨?_, rfl⟩
  simp [renderFrame, processLabel, quiescentState, label1, offscreenScene,
    AssocArray.values, AssocArray.length, Cartesian3.dot]

/-- C3 (amended): during per-frame synchronization, for a visible label
that is not behind the camera and whose world-to-screen projection returns
undefined, the label's element style is left unchanged (there is no `else`
branch hiding it: it keeps whatever display value it had). -/
theorem renderFrame_offscreen_leaves_style (scene : Scene)
    (st : CollectionState) (dom : DOMState) (l : DOMLabel) (e : ElemState)
    (hshow : st._show = true) (hmem : l ∈ st._labels.values)
    (hl : l._show = true)
    (hnodup : (st._labels.values.map (fun x => x.ref)).Nodup)
    (hdot : ¬ Cartesian3.dot scene.cameraPosition l._position < 0)
    (hproj : scene.cartesianToCanvasCoordinates l._position = Option.none)
    (hdom : dom.get l.ref = some e) :
    (renderFrame scene st dom).get l.ref = some e := by
  rw [renderFrame_get_of_mem scene st dom l hshow hmem hnodup]
  unfold processLabel
  simp [hl, hdot, hproj, hdom]

/-- Witness for `renderFrame_offscreen_leaves_style`: `label1` under the
always-undefined projection of `offscreenScene`. -/
theorem renderFrame_offscreen_leaves_style_witness :
    (renderFrame offscreenScene quiescentState [(100, sampleElem)]).get
        label1.ref = some sampleElem :=
  renderFrame_offscreen_leaves_style offscreenScene quiescentState
    [(100, sampleElem)] label1 sampleElem (by decide) (by decide) (by decide)
    (by decide) (by simp [offscreenScene, label1, Cartesian3.dot]) rfl
    (by decide)

end PLC

namespace PLC

theorem AssocArray.set_fresh {α : Type} [DecidableEq α] (a : AssocArray α)
    (k : Nat) (v : α) (h : a.get k = Option.none) :
    a.set k v = AssocArray.mk (a.entries ++ [(k, v)]) := by
  simp [AssocArray.set, h, AssocArray.remove_of_get_none a k h]

theorem AssocArray.get_append_single_ne {α : Type} (e : List (Nat × α))
    (k0 : Nat) (v0 : α) (k : Nat)
    (h : (AssocArray.mk e).get k = Option.none) (hne : k0 ≠ k) :
    (AssocArray.mk (e ++ [(k0, v0)])).get k = Option.none := by
  unfold AssocArray.get at h ⊢
  rw [Option.map_eq_none'] at h ⊢
  rw [List.find?_append, h]
  simp [hne]

theorem foldl_set_entries (ls : List DOMLabel) (a : AssocArray DOMLabel)
    (hdisj : ∀ l ∈ ls, a.get l.id = Option.none)
    (hids : (ls.map (fun l => l.id)).Nodup) :
    (ls.foldl (fun acc l => acc.set l.id l) a).entries =
      a.entries ++ ls.map (fun l => (l.id, l)) := by
  induction ls generalizing a with
  | nil => simp
  | cons x t ih =>
    have hx : a.get x.id = Option.none := hdisj x (List.mem_cons_self x t)
    have hids' : (t.map (fun l => l.id)).Nodup := by
      rw [List.map_cons, List.nodup_cons] at hids
      exact hids.2
    have hxid : x.id ∉ t.map (fun l => l.id) := by
      rw [List.map_cons, List.nodup_cons] at hids
      exact hids.1
    have hdisj' : ∀ l ∈ t,
        (AssocArray.mk (a.entries ++ [(x.id, x)])).get l.id = Option.none := by
      intro l hl
      refine AssocArray.get_append_single_ne a.entries x.id x l.id
        (hdisj l (List.mem_cons_of_mem x hl)) ?_
      intro he
      exact hxid (by rw [he]; exact List.mem_map_of_mem _ hl)
    rw [List.foldl_cons, AssocArray.set_fresh a x.id x hx, ih _ hdisj' hids']
    simp

theorem not_mem_foldl_erase (rs : List Nat) (c : List Nat) (r : Nat)
    (h : r ∉ c) : r ∉ rs.foldl (fun acc x => acc.erase x) c := by
  induction rs generalizing c with
  | nil => exact h
  | cons x t ih =>
    rw [List.foldl_cons]
    exact ih _ (fun hm => h (List.mem_of_mem_erase hm))

theorem mem_not_mem_foldl_erase (rs : List Nat) :
    ∀ c : List Nat, c.Nodup → ∀ r ∈ rs,
      r ∉ rs.foldl (fun acc x => acc.erase x) c := by
  induction rs with
  | nil =>
    intro c _ r hr
    cases hr
  | cons x t ih =>
    intro c hnd r hr
    rw [List.foldl_cons]
    rcases List.mem_cons.mp hr with rfl | hrt
    · exact not_mem_foldl_erase t _ r hnd.not_mem_erase
    · exact ih _ (hnd.erase x) r hrt

theorem removeAll_loop_char (ls : List DOMLabel) (st : CollectionState)
    (hadd : st._addedLabels.entries = []) :
    ls.foldl removeAllStep st =
      { st with
          containerChildren := ls.foldl (fun c l => c.erase l.ref) st.containerChildren
          _removedLabels := ls.foldl (fun a l => a.set l.id l) st._removedLabels } := by
  induction ls generalizing st with
  | nil => rfl
  | cons x t ih =>
    have hstep : removeAllStep st x =
        { st with
            containerChildren := st.containerChildren.erase x.ref
            _removedLabels := st._removedLabels.set x.id x } := by
      simp [removeAllStep, AssocArray.get_of_entries_nil st._addedLabels x.id hadd]
    rw [List.foldl_cons, List.foldl_cons, List.foldl_cons, hstep,
      ih { st with
          containerChildren := st.containerChildren.erase x.ref
          _removedLabels := st._removedLabels.set x.id x } hadd]

theorem fireChangedEvent_noop_full (n : Nat) (st : CollectionState)
    (hf : st._firing = false)
    (hne : st._addedLabels.length ≠ 0 ∨ st._removedLabels.length ≠ 0) :
    fireChangedEvent noopListener (n + 1) st =
      { st with
          _addedLabels := AssocArray.empty
          _removedLabels := AssocArray.empty
          _refire := false
          _firing := false
          events := st.events ++
            [(st._addedLabels.values, st._removedLabels.values)] } := by
  unfold fireChangedEvent fireLoop raiseEvent noopListener
  rw [hf]
  simp [hne]

end PLC

namespace PLC

/-- C2 counterexample: `removeAll` on the mid-notification state whose only
label is still pending in the added set empties the collection but detaches
no element (the container still holds the label's element) and raises no
notification at all — contradicting "detaches every label's DOM element
... and fires the collection-changed notification exactly once". -/
theorem removeAll_pending_added_counterexample :
    (removeAll noopListener 1 midNotifyState).containerChildren = [100] ∧
    (removeAll noopListener 1 midNotifyState).events = [] ∧
    (removeAll noopListener 1 midNotifyState)._labels = AssocArray.empty := by
  refine ⟨rfl, rfl, rfl⟩

/-- C2 (amended): on a quiescent collection (not mid-notification, both
pending delta sets empty — the situation every public-API call sequence
leaves behind) holding at least one label, `removeAll` empties the label
map and both pending sets, raises `collectionChanged` exactly once with the
whole former contents as the removed array, and detaches every stored
label's element; labels pending in the added set are exempt from
detachment, and with no label at all no notification fires. -/
theorem removeAll_detaches_and_fires_once (n : Nat) (st : CollectionState)
    (hf : st._firing = false)
    (hadd : st._addedLabels.entries = [])
    (hrem : st._removedLabels.entries = [])
    (hne : st._labels.entries ≠ [])
    (hids : (st._labels.values.map (fun l => l.id)).Nodup)
    (hnd : st.containerChildren.Nodup) :
    (removeAll noopListener (n + 1) st)._labels = AssocArray.empty ∧
    (removeAll noopListener (n + 1) st)._addedLabels = AssocArray.empty ∧
    (removeAll noopListener (n + 1) st)._removedLabels = AssocArray.empty ∧
    (removeAll noopListener (n + 1) st).events =
      st.events ++ [([], st._labels.values)] ∧
    ∀ l ∈ st._labels.values,
      l.ref ∉ (removeAll noopListener (n + 1) st).containerChildren := by
  have hdisj : ∀ l ∈ st._labels.values,
      st._removedLabels.get l.id = Option.none :=
    fun l _ => AssocArray.get_of_entries_nil _ _ hrem
  have hRent := foldl_set_entries st._labels.values st._removedLabels hdisj hids
  have hRvals : (st._labels.values.foldl (fun acc l => acc.set l.id l)
      st._removedLabels).values = st._labels.values := by
    show (st._labels.values.foldl (fun acc l => acc.set l.id l)
      st._removedLabels).entries.map (fun p => p.2) = st._labels.values
    rw [hRent, hrem]
    simp only [List.nil_append, List.map_map]
    have hid : ((fun p : Nat × DOMLabel => p.2) ∘ fun l : DOMLabel => (l.id, l)) = id := rfl
    rw [hid, List.map_id]
  have hvne : st._labels.values ≠ [] := by
    intro h0
    exact hne (List.map_eq_nil_iff.mp h0)
  have hA : removeAll noopListener (n + 1) st =
      fireChangedEvent noopListener (n + 1)
        { st with
            _labels := AssocArray.empty
            _addedLabels := AssocArray.empty
            _removedLabels :=
              st._labels.values.foldl (fun a l => a.set l.id l) st._removedLabels
            containerChildren :=
              st._labels.values.foldl (fun c l => c.erase l.ref)
                st.containerChildren } := by
    simp only [removeAll]
    rw [removeAll_loop_char st._labels.values st hadd]
    rfl
  have hneX : (AssocArray.empty : AssocArray DOMLabel).length ≠ 0 ∨
      (st._labels.values.foldl (fun a l => a.set l.id l)
        st._removedLabels).length ≠ 0 := by
    refine Or.inr ?_
    unfold AssocArray.length
    rw [hRent, hrem]
    simpa using hvne
  have hall := hA.trans (fireChangedEvent_noop_full n
    { st with
        _labels := AssocArray.empty
        _addedLabels := AssocArray.empty
        _removedLabels :=
          st._labels.values.foldl (fun a l => a.set l.id l) st._removedLabels
        containerChildren :=
          st._labels.values.foldl (fun c l => c.erase l.ref)
            st.containerChildren } hf hneX)
  refine ⟨?_, ?_, ?_, ?_, ?_⟩
  · rw [hall]
  · rw [hall]
  · rw [hall]
  · rw [hall]
    show st.events ++ _ = _
    rw [hRvals]
    rfl
  · intro l hl
    rw [hall]
    show l.ref ∉
      st._labels.values.foldl (fun c x => c.erase x.ref) st.containerChildren
    rw [← List.foldl_map]
    exact mem_not_mem_foldl_erase _ _ hnd _ (List.mem_map_of_mem _ hl)

/-- Witness for `removeAll_detaches_and_fires_once` on the quiescent
collection holding `label1`. -/
theorem removeAll_detaches_and_fires_once_witness :
    (removeAll noopListener 1 quiescentState)._labels = AssocArray.empty ∧
    (removeAll noopListener 1 quiescentState).events = [([], [label1])] ∧
    label1.ref ∉ (removeAll noopListener 1 quiescentState).containerChildren := by
  have h := removeAll_detaches_and_fires_once 0 quiescentState (by decide)
    (by decide) (by decide) (by decide) (by decide) (by decide)
  refine ⟨h.1, ?_, h.2.2.2.2 label1 (by decide)⟩
  have he := h.2.2.2.1
  simpa [quiescentState, AssocArray.values] using he

end PLC
